import Mathlib

/-!
# Kinetix-Lab capture pipeline — verification development

A shallow embedding of the multi-frame / multi-view capture-and-telemetry
pipeline of the Kinetix-Lab repository, together with theorems settling the
frozen claims about it.

Conventions of the embedding:
* JS numbers are modelled as rationals (`ℚ`); trigonometry uses `ℝ`.
* JS array access `a[i]` (which yields `undefined` out of bounds) is
  `List.getElem?`; reading a field of `undefined` (a `TypeError`) is an
  `Except.error`.
* The mutable `HTMLVideoElement` is a `VideoState` record threaded through
  the seek loops; setting `currentTime` and awaiting the `seeked` event is a
  state update.
* A per-frame render that can fail (`getContext` returning `null`,
  `captureVideoFrame` returning `null`) is a function `ℚ → Option String`
  from timestamp to encoded frame.
* Pose detection at a seeked position (`detectPoseFrame`) is a function
  `ℚ → Option PoseData` from timestamp to detection result.
-/

/-- A pose landmark in normalized image space (`biomechanics.ts`, `Landmark`):
`{ x, y, z?, visibility? }`. -/
structure Landmark where
  x : ℚ
  y : ℚ
  z : Option ℚ := none
  visibility : Option ℚ := none
deriving Repr, DecidableEq, Inhabited

/-- One detected pose (`poseDetectionService.ts`, `PoseData`): normalized
landmarks plus world landmarks (the optional ball datum plays no part in the
claims and is omitted). -/
structure PoseData where
  landmarks : List Landmark
  worldLandmarks : List Landmark
  timestamp : Option ℚ := none
deriving Repr, DecidableEq, Inhabited

/-- The seekable source (`HTMLVideoElement`) restricted to the two fields the
pipeline reads and writes: the playback position and the media duration. -/
structure VideoState where
  currentTime : ℚ
  duration : ℚ
deriving Repr, DecidableEq

/-- Return value of `captureMultipleFrames` (`MultiFrameCapture`):
encoded frames, their timestamps, and the index advertised as pointing at the
center frame. -/
structure MultiFrameCapture where
  frames : List String
  timestamps : List ℚ
  centerFrameIndex : ℕ
deriving Repr, DecidableEq

/-- `Math.max(0, Math.min(videoElement.duration, t))` — the clamp applied to
every computed frame time. -/
def clampTime (duration t : ℚ) : ℚ := max 0 (min duration t)

/-- The inclusive integer range `[lo, hi]` as a list: the index sequence of a
`for (let i = lo; i <= hi; i++)` loop. -/
def intRangeIncl (lo hi : ℤ) : List ℤ :=
  (List.range (hi - lo + 1).toNat).map (fun k : ℕ => lo + (k : ℤ))

/-- The `frameTimes` array: each loop index is turned into
`clamp(centerTime + i * intervalSeconds)`. -/
def frameTimes (duration centerTime intervalSeconds : ℚ) (idxs : List ℤ) : List ℚ :=
  idxs.map (fun i : ℤ => clampTime duration (centerTime + (i : ℚ) * intervalSeconds))

/-- The per-timestamp capture loop shared by both `captureMultipleFrames`
versions: for each time, seek (set `currentTime`, await `seeked`), render;
on success push the encoded frame and the timestamp. `render t = none` models
a failed render for that slot (skipped, loop continues). -/
def captureLoop (render : ℚ → Option String) :
    List ℚ → VideoState → List String × List ℚ × VideoState
  | [], s => ([], [], s)
  | t :: ts, s =>
    let s1 : VideoState := { s with currentTime := t }
    match render t with
    | some frame =>
      let r := captureLoop render ts s1
      (frame :: r.1, t :: r.2.1, r.2.2)
    | none => captureLoop render ts s1

namespace FileUtils

/-- `captureMultipleFrames` from `src/src/utils/fileUtils.ts`: the symmetric
index loop `for (let i = -halfFrames; i <= halfFrames; i++)` with
`halfFrames = Math.floor(frameCount / 2)`; afterwards the original playback
position is restored and `centerFrameIndex = halfFrames` is returned. -/
def captureMultipleFrames (videoElement : VideoState) (centerTime : ℚ)
    (frameCount : ℕ) (intervalSeconds : ℚ) (render : ℚ → Option String) :
    MultiFrameCapture × VideoState :=
  let originalTime := videoElement.currentTime
  let halfFrames : ℕ := frameCount / 2
  let times := frameTimes videoElement.duration centerTime intervalSeconds
    (intRangeIncl (-(halfFrames : ℤ)) (halfFrames : ℤ))
  let r := captureLoop render times videoElement
  (⟨r.1, r.2.1, halfFrames⟩, { r.2.2 with currentTime := originalTime })

end FileUtils

namespace DownloadUtils

/-- `captureMultipleFrames` from `src/src/utils/downloadUtils.ts`: the
asymmetric index loop from `startIndex = -Math.floor((frameCount - 1) / 2)`
to `endIndex = Math.floor(frameCount / 2)`; afterwards the original playback
position is restored and `centerFrameIndex = halfFrames` is returned, where
`halfFrames = Math.floor(frameCount / 2)`. -/
def captureMultipleFrames (videoElement : VideoState) (centerTime : ℚ)
    (frameCount : ℕ) (intervalSeconds : ℚ) (render : ℚ → Option String) :
    MultiFrameCapture × VideoState :=
  let originalTime := videoElement.currentTime
  let halfFrames : ℕ := frameCount / 2
  let startIndex : ℤ := -(((frameCount : ℤ) - 1) / 2)
  let endIndex : ℤ := (frameCount : ℤ) / 2
  let times := frameTimes videoElement.duration centerTime intervalSeconds
    (intRangeIncl startIndex endIndex)
  let r := captureLoop render times videoElement
  (⟨r.1, r.2.1, halfFrames⟩, { r.2.2 with currentTime := originalTime })

end DownloadUtils

/-- Timestamps visited by the `findPeakMoment` scan
`for (let t = 0; t < duration; t += 0.5)`: exactly the multiples of `1/2`
that are strictly below `duration`, in increasing order. -/
def scanTimes (duration : ℚ) : List ℚ :=
  (List.range (Nat.ceil (2 * duration))).map (fun k : ℕ => (k : ℚ) / 2)

/-- `nHeadY`: mean normalized `y` of nose and the two eye landmarks 0, 2, 5. -/
def nHeadY (pose : PoseData) : ℚ :=
  ((pose.landmarks.getD 0 default).y + (pose.landmarks.getD 2 default).y +
    (pose.landmarks.getD 5 default).y) / 3

/-- `nHipY`: mean normalized `y` of the two hip landmarks 23, 24. -/
def nHipY (pose : PoseData) : ℚ :=
  ((pose.landmarks.getD 23 default).y + (pose.landmarks.getD 24 default).y) / 2

/-- `l.visibility && l.visibility > 0.6` — the per-landmark visibility test of
the activity bonus. -/
def visibleLandmark (l : Landmark) : Bool :=
  match l.visibility with
  | some v => decide ((0.6 : ℚ) < v)
  | none => false

/-- `visibleCount`: the number of landmarks whose visibility exceeds `0.6`. -/
def visibleCount (pose : PoseData) : ℕ :=
  (pose.landmarks.filter visibleLandmark).length

/-- The per-step score of `findPeakMoment`: an inversion bonus of
`50 + (nHeadY - nHipY) * 100` when the head is below the hips, plus one point
per visible landmark. -/
def poseScore (pose : PoseData) : ℚ :=
  (if nHipY pose < nHeadY pose then 50 + (nHeadY pose - nHipY pose) * 100 else 0) +
    (visibleCount pose : ℚ)

/-- Score at a scanned timestamp: `none` when no pose is detected there. -/
def scoreAt (detect : ℚ → Option PoseData) (t : ℚ) : Option ℚ :=
  (detect t).map poseScore

/-- The body of the `findPeakMoment` scan: per timestamp, seek and await
`seeked`, detect a pose, and keep `(bestTime, maxScore)` updated through
`if (score > maxScore)`. -/
def findPeakLoop (detect : ℚ → Option PoseData) :
    List ℚ → ℚ × ℚ → VideoState → (ℚ × ℚ) × VideoState
  | [], acc, s => (acc, s)
  | t :: ts, acc, s =>
    let s1 : VideoState := { s with currentTime := t }
    match detect t with
    | some pose =>
      if acc.2 < poseScore pose then findPeakLoop detect ts (t, poseScore pose) s1
      else findPeakLoop detect ts acc s1
    | none => findPeakLoop detect ts acc s1

/-- `findPeakMoment` from the pose-detection service: scans `[0, duration)` in
`0.5 s` steps starting from `bestTime = 0`, `maxScore = -1`, and returns
`{ bestTime, score }` together with the video state it leaves behind (the scan
performs no final restoring seek). -/
def findPeakMoment (videoElement : VideoState) (detect : ℚ → Option PoseData) :
    (ℚ × ℚ) × VideoState :=
  findPeakLoop detect (scanTimes videoElement.duration) (0, -1) videoElement

/-- `Math.atan2 y x`, as the argument of the complex number `x + y i`,
valued in `(-π, π]`. -/
noncomputable def atan2 (y x : ℝ) : ℝ := Complex.arg ⟨x, y⟩

/-- `calculateAngle` from `biomechanics.ts`: absolute `atan2` difference in
degrees, reflected through `360 - angle` when it exceeds `180`. -/
noncomputable def calculateAngle (a b c : Landmark) : ℝ :=
  let radians := atan2 ((c.y : ℝ) - (b.y : ℝ)) ((c.x : ℝ) - (b.x : ℝ)) -
    atan2 ((a.y : ℝ) - (b.y : ℝ)) ((a.x : ℝ) - (b.x : ℝ))
  let angle := |radians * 180 / Real.pi|
  if 180 < angle then 360 - angle else angle

/-- `getCenterOfMass` from `biomechanics.ts`: averages landmarks 11, 12, 23,
24 after checking each for presence; `null` when any is missing. -/
def getCenterOfMass (landmarks : List Landmark) : Option (ℚ × ℚ) :=
  match landmarks[11]?, landmarks[12]?, landmarks[23]?, landmarks[24]? with
  | some ls, some rs, some lh, some rh =>
    some ((ls.x + rs.x + lh.x + rh.x) / 4, (ls.y + rs.y + lh.y + rh.y) / 4)
  | _, _, _, _ => none

/-- Return record of `analyzeSymmetry`. -/
structure SymmetryResult where
  shouldersLevel : Bool
  hipsLevel : Bool
  shoulderTiltRaw : ℚ
  hipTiltRaw : ℚ
deriving Repr, DecidableEq

/-- The object literal returned by `analyzeSymmetry` on present landmarks:
a pair is level when its vertical deviation is below the `0.05` threshold. -/
def mkSymmetryResult (ls rs lh rh : Landmark) : SymmetryResult :=
  let shoulderTilt := |ls.y - rs.y|
  let hipTilt := |lh.y - rh.y|
  ⟨decide (shoulderTilt < 0.05), decide (hipTilt < 0.05), shoulderTilt, hipTilt⟩

/-- `analyzeSymmetry` from `biomechanics.ts`: reads `.y` of landmarks 11, 12,
23, 24 with no presence check; reading a field of `undefined` throws a
`TypeError`, modelled as `Except.error`. -/
def analyzeSymmetry (landmarks : List Landmark) : Except String SymmetryResult :=
  match landmarks[11]?, landmarks[12]?, landmarks[23]?, landmarks[24]? with
  | some ls, some rs, some lh, some rh => Except.ok (mkSymmetryResult ls rs lh rh)
  | _, _, _, _ => Except.error "TypeError: cannot read property y of undefined"

/-- One video-player slot of `handleGlobalAnalyze`. `duration = none` models a
source whose duration is unusable (`NaN`, `Infinity`, or no metadata). -/
structure PlayerView where
  duration : Option ℚ
  currentTime : ℚ
deriving Repr, DecidableEq

/-- The `(count, intervalSeconds, centerTime)` triple passed to
`captureMultiFrames` in the `captureWindow > 1` branch of
`handleGlobalAnalyze`: when the duration is a positive finite number, interval
is `duration / captureWindow` and the center is the midpoint `duration / 2`;
otherwise interval falls back to `1.0` with no center override. The `peakTime`
found by smart search is in scope at this call but is not consulted. -/
def multiFrameCaptureArgs (peakTime : Option ℚ) (player : PlayerView)
    (captureWindow : ℕ) : ℕ × ℚ × Option ℚ :=
  match player.duration with
  | some d =>
    if 0 < d then (captureWindow, d / (captureWindow : ℚ), some (d / 2))
    else (captureWindow, 1, none)
  | none => (captureWindow, 1, none)

/-- The `views` array of `handleGlobalAnalyze`: each player contributes its
capture result (`none` when the player is absent or its capture failed), and
only non-`none` results are pushed. -/
def buildViews (captures : List (Option (List String))) : List (List String) :=
  captures.filterMap id

/-- The message thrown by the no-input guard. -/
def noInputError : String := "No video input detected. Please upload a video first."

/-- The no-input guard of `handleGlobalAnalyze`: throw when `views.length === 0`,
otherwise hand the views onward to `analyzeMultiViewMovement`. -/
def runAnalysisGuard (captures : List (Option (List String))) :
    Except String (List (List String)) :=
  let views := buildViews captures
  if views.length = 0 then .error noInputError else .ok views

/-- The `(start, end)` global 1-indexed positions per view, as accumulated by
the `currentIndex` fold that builds `mappingTable` in
`analyzeMultiViewMovement`: `start = currentIndex`,
`end = currentIndex + frames.length - 1`, then `currentIndex += frames.length`. -/
def viewRangesFrom (start : ℕ) : List ℕ → List (ℕ × ℕ)
  | [] => []
  | len :: rest => (start, start + len - 1) :: viewRangesFrom (start + len) rest

/-- `viewRanges sizes`: the mapping table ranges with `currentIndex` starting
at `1`. -/
def viewRanges (sizes : List ℕ) : List (ℕ × ℕ) := viewRangesFrom 1 sizes

/-- The translation rule the mapping table encodes for the downstream oracle:
a global 1-indexed position `pos` lying in view `v`'s range `[start, end]`
denotes `(v.label, pos - start + 1)`. -/
def flatIndexMapFrom (start : ℕ) : List (String × ℕ) → ℕ → Option (String × ℕ)
  | [], _ => none
  | (label, len) :: rest, pos =>
    if start ≤ pos ∧ pos ≤ start + len - 1 then some (label, pos - start + 1)
    else flatIndexMapFrom (start + len) rest pos

/-- `flatIndexMap views pos`: the translation rule with positions starting
at `1`, over `(label, frameCount)` pairs in caller-supplied view order. -/
def flatIndexMap (views : List (String × ℕ)) (pos : ℕ) : Option (String × ℕ) :=
  flatIndexMapFrom 1 views pos

/-! ## Capture-loop lemmas -/

theorem captureLoop_timestamps (render : ℚ → Option String) :
    ∀ (ts : List ℚ) (s : VideoState),
      (captureLoop render ts s).2.1 = ts.filter (fun t => (render t).isSome) := by
  intro ts
  induction ts with
  | nil => intro s; rfl
  | cons t ts ih =>
    intro s
    cases h : render t with
    | some frame => simp [captureLoop, h, ih, List.filter_cons]
    | none => simp [captureLoop, h, ih, List.filter_cons]

theorem captureLoop_frames_length (render : ℚ → Option String)
    (hr : ∀ t, (render t).isSome) :
    ∀ (ts : List ℚ) (s : VideoState),
      (captureLoop render ts s).1.length = ts.length := by
  intro ts
  induction ts with
  | nil => intro s; rfl
  | cons t ts ih =>
    intro s
    cases h : render t with
    | some frame => simp [captureLoop, h, ih]
    | none => have := hr t; rw [h] at this; simp at this

theorem dl_timestamps (videoElement : VideoState) (centerTime : ℚ) (frameCount : ℕ)
    (intervalSeconds : ℚ) (render : ℚ → Option String) :
    (DownloadUtils.captureMultipleFrames videoElement centerTime frameCount intervalSeconds
        render).1.timestamps =
      (frameTimes videoElement.duration centerTime intervalSeconds
          (intRangeIncl (-(((frameCount : ℤ) - 1) / 2)) ((frameCount : ℤ) / 2))).filter
        (fun t => (render t).isSome) := by
  simp [DownloadUtils.captureMultipleFrames, captureLoop_timestamps]

theorem fu_timestamps (videoElement : VideoState) (centerTime : ℚ) (frameCount : ℕ)
    (intervalSeconds : ℚ) (render : ℚ → Option String) :
    (FileUtils.captureMultipleFrames videoElement centerTime frameCount intervalSeconds
        render).1.timestamps =
      (frameTimes videoElement.duration centerTime intervalSeconds
          (intRangeIncl (-((frameCount / 2 : ℕ) : ℤ)) ((frameCount / 2 : ℕ) : ℤ))).filter
        (fun t => (render t).isSome) := by
  simp [FileUtils.captureMultipleFrames, captureLoop_timestamps]

theorem asym_range_count (n : ℕ) :
    ((n : ℤ) / 2 - (-(((n : ℤ) - 1) / 2)) + 1).toNat = n := by
  omega

theorem intRangeIncl_asym (n : ℕ) :
    intRangeIncl (-(((n : ℤ) - 1) / 2)) ((n : ℤ) / 2) =
      (List.range n).map (fun k : ℕ => -(((n : ℤ) - 1) / 2) + (k : ℤ)) := by
  unfold intRangeIncl
  rw [asym_range_count]

theorem intRangeIncl_length (lo hi : ℤ) :
    (intRangeIncl lo hi).length = (hi - lo + 1).toNat := by
  unfold intRangeIncl
  rw [List.length_map, List.length_range]

theorem frameTimes_length (d c v : ℚ) (idxs : List ℤ) :
    (frameTimes d c v idxs).length = idxs.length := by
  unfold frameTimes
  rw [List.length_map]

/-! ## C1 — frame count and index range of the sampler -/

/-- C1 (amended): with every per-frame render succeeding, the `downloadUtils.ts`
`captureMultipleFrames` returns exactly `frameCount` frames, its timestamps
computed over the asymmetric index range
`[-⌊(frameCount-1)/2⌋ .. ⌊frameCount/2⌋]`, while the `fileUtils.ts`
`captureMultipleFrames` iterates the symmetric range
`[-⌊frameCount/2⌋ .. ⌊frameCount/2⌋]` and returns `2⌊frameCount/2⌋ + 1`
frames — equal to `frameCount` only for odd counts. -/
theorem C1_thm (videoElement : VideoState) (centerTime intervalSeconds : ℚ)
    (frameCount : ℕ) (render : ℚ → Option String) (hr : ∀ t, (render t).isSome) :
    (DownloadUtils.captureMultipleFrames videoElement centerTime frameCount
        intervalSeconds render).1.frames.length = frameCount ∧
    (DownloadUtils.captureMultipleFrames videoElement centerTime frameCount
        intervalSeconds render).1.timestamps =
      (List.range frameCount).map (fun k : ℕ =>
        clampTime videoElement.duration
          (centerTime +
            ((-(((frameCount : ℤ) - 1) / 2) + (k : ℤ) : ℤ) : ℚ) * intervalSeconds)) ∧
    (FileUtils.captureMultipleFrames videoElement centerTime frameCount
        intervalSeconds render).1.frames.length = 2 * (frameCount / 2) + 1 := by
  refine ⟨?_, ?_, ?_⟩
  · show (captureLoop render
        (frameTimes videoElement.duration centerTime intervalSeconds
          (intRangeIncl (-(((frameCount : ℤ) - 1) / 2)) ((frameCount : ℤ) / 2)))
        videoElement).1.length = frameCount
    rw [captureLoop_frames_length render hr, frameTimes_length, intRangeIncl_length]
    omega
  · rw [dl_timestamps, List.filter_eq_self.mpr (fun a _ => hr a), intRangeIncl_asym]
    unfold frameTimes
    rw [List.map_map]
    rfl
  · show (captureLoop render
        (frameTimes videoElement.duration centerTime intervalSeconds
          (intRangeIncl (-((frameCount / 2 : ℕ) : ℤ)) ((frameCount / 2 : ℕ) : ℤ)))
        videoElement).1.length = 2 * (frameCount / 2) + 1
    rw [captureLoop_frames_length render hr, frameTimes_length, intRangeIncl_length]
    omega

/-- Witness for C1 at `frameCount = 4`, interval `1`, center `5`, duration `10`,
every render succeeding. -/
theorem C1_witness :
    (DownloadUtils.captureMultipleFrames ⟨0, 10⟩ 5 4 1
        (fun _ => some "f")).1.frames.length = 4 ∧
    (DownloadUtils.captureMultipleFrames ⟨0, 10⟩ 5 4 1
        (fun _ => some "f")).1.timestamps =
      (List.range 4).map (fun k : ℕ =>
        clampTime (10 : ℚ) ((5 : ℚ) + ((-(((4 : ℤ) - 1) / 2) + (k : ℤ) : ℤ) : ℚ) * 1)) ∧
    (FileUtils.captureMultipleFrames ⟨0, 10⟩ 5 4 1
        (fun _ => some "f")).1.frames.length = 2 * (4 / 2) + 1 :=
  C1_thm ⟨0, 10⟩ 5 1 4 (fun _ => some "f") (fun _ => rfl)

/-- Counterexample to C1 as stated: the `fileUtils.ts` sampler at even
`frameCount = 4` (all renders succeeding) returns 5 frames, not 4. -/
theorem C1_counterexample :
    (FileUtils.captureMultipleFrames ⟨0, 10⟩ 5 4 1
        (fun _ => some "f")).1.frames.length ≠ 4 := by
  decide

/-! ## C2 — playback-position restoration -/

theorem getLast?_cons_getD (t x : ℚ) (ts : List ℚ) :
    ((t :: ts).getLast?).getD x = (ts.getLast?).getD t := by
  cases ts with
  | nil => rfl
  | cons a l =>
    cases hy : (a :: l).getLast? with
    | none => simp at hy
    | some y => simp [List.getLast?_cons_cons, hy]

theorem findPeakLoop_currentTime (detect : ℚ → Option PoseData) :
    ∀ (ts : List ℚ) (acc : ℚ × ℚ) (s : VideoState),
      (findPeakLoop detect ts acc s).2.currentTime = (ts.getLast?).getD s.currentTime := by
  intro ts
  induction ts with
  | nil => intro acc s; rfl
  | cons t ts ih =>
    intro acc s
    rw [getLast?_cons_getD]
    cases h : detect t with
    | some pose =>
      by_cases hlt : acc.2 < poseScore pose <;> simp [findPeakLoop, h, hlt, ih]
    | none => simp [findPeakLoop, h, ih]

/-- C2 (amended): after either `captureMultipleFrames` returns, the source's
`currentTime` equals its value before the call; but after `findPeakMoment`
returns, `currentTime` equals the last scanned timestamp (the greatest
multiple of `0.5` below the duration) — it is only unchanged when the scan is
empty. The peak finder does not restore the playback position. -/
theorem C2_thm :
    (∀ (videoElement : VideoState) (centerTime : ℚ) (frameCount : ℕ)
        (intervalSeconds : ℚ) (render : ℚ → Option String),
        (DownloadUtils.captureMultipleFrames videoElement centerTime frameCount
            intervalSeconds render).2.currentTime = videoElement.currentTime) ∧
    (∀ (videoElement : VideoState) (centerTime : ℚ) (frameCount : ℕ)
        (intervalSeconds : ℚ) (render : ℚ → Option String),
        (FileUtils.captureMultipleFrames videoElement centerTime frameCount
            intervalSeconds render).2.currentTime = videoElement.currentTime) ∧
    (∀ (videoElement : VideoState) (detect : ℚ → Option PoseData),
        (findPeakMoment videoElement detect).2.currentTime =
          ((scanTimes videoElement.duration).getLast?).getD videoElement.currentTime) := by
  refine ⟨fun v c n i r => rfl, fun v c n i r => rfl, fun v detect => ?_⟩
  exact findPeakLoop_currentTime detect _ _ _

/-- Counterexample to C2 as stated: a 1-second source whose position was `7`
is left at the last scanned timestamp `0.5` by `findPeakMoment`, not at `7`. -/
theorem C2_counterexample :
    (findPeakMoment ⟨7, 1⟩ (fun _ => none)).2.currentTime ≠ 7 := by
  norm_num [findPeakMoment, findPeakLoop, scanTimes, List.range_succ]

/-! ## C4 — centerFrameIndex -/

theorem dl_timestamps_all (videoElement : VideoState) (centerTime intervalSeconds : ℚ)
    (frameCount : ℕ) (render : ℚ → Option String) (hr : ∀ t, (render t).isSome) :
    (DownloadUtils.captureMultipleFrames videoElement centerTime frameCount
        intervalSeconds render).1.timestamps =
      (List.range frameCount).map (fun k : ℕ =>
        clampTime videoElement.duration
          (centerTime +
            ((-(((frameCount : ℤ) - 1) / 2) + (k : ℤ) : ℤ) : ℚ) * intervalSeconds)) := by
  rw [dl_timestamps, List.filter_eq_self.mpr (fun a _ => hr a), intRangeIncl_asym]
  unfold frameTimes
  rw [List.map_map]
  rfl

/-- C4 (amended): for `frameCount ≥ 1` with every render succeeding,
`centerFrameIndex = ⌊frameCount/2⌋` always lies in `[0, frameCount)`; the
timestamp computed from the requested center instant sits at position
`⌊(frameCount-1)/2⌋`, which coincides with `centerFrameIndex` exactly for odd
counts — for even counts `centerFrameIndex` points one interval after the
center instant. -/
theorem C4_thm (videoElement : VideoState) (centerTime intervalSeconds : ℚ)
    (frameCount : ℕ) (render : ℚ → Option String)
    (hn : 1 ≤ frameCount) (hr : ∀ t, (render t).isSome) :
    (DownloadUtils.captureMultipleFrames videoElement centerTime frameCount
        intervalSeconds render).1.centerFrameIndex = frameCount / 2 ∧
    (DownloadUtils.captureMultipleFrames videoElement centerTime frameCount
        intervalSeconds render).1.centerFrameIndex < frameCount ∧
    (DownloadUtils.captureMultipleFrames videoElement centerTime frameCount
        intervalSeconds render).1.timestamps[(frameCount - 1) / 2]? =
      some (clampTime videoElement.duration centerTime) ∧
    (frameCount % 2 = 1 → (frameCount - 1) / 2 = frameCount / 2) ∧
    (frameCount % 2 = 0 →
      (DownloadUtils.captureMultipleFrames videoElement centerTime frameCount
          intervalSeconds render).1.timestamps[frameCount / 2]? =
        some (clampTime videoElement.duration (centerTime + intervalSeconds))) := by
  refine ⟨rfl, by show frameCount / 2 < frameCount; omega, ?_, fun hodd => by omega,
    fun heven => ?_⟩
  · rw [dl_timestamps_all videoElement centerTime intervalSeconds frameCount render hr]
    have hlt : (frameCount - 1) / 2 < frameCount := by omega
    rw [List.getElem?_map, List.getElem?_range hlt]
    have h0 : (-(((frameCount : ℤ) - 1) / 2) + (((frameCount - 1) / 2 : ℕ) : ℤ)) = 0 := by
      omega
    rw [Option.map_some', h0, Int.cast_zero, zero_mul, add_zero]
  · rw [dl_timestamps_all videoElement centerTime intervalSeconds frameCount render hr]
    have hlt : frameCount / 2 < frameCount := by omega
    rw [List.getElem?_map, List.getElem?_range hlt]
    have h1 : (-(((frameCount : ℤ) - 1) / 2) + ((frameCount / 2 : ℕ) : ℤ)) = 1 := by
      omega
    rw [Option.map_some', h1, Int.cast_one, one_mul]

/-- Witness for C4 at `frameCount = 4`, center `5`, interval `1`, duration `10`. -/
theorem C4_witness :
    (DownloadUtils.captureMultipleFrames ⟨0, 10⟩ 5 4 1
        (fun _ => some "f")).1.centerFrameIndex = 4 / 2 ∧
    (DownloadUtils.captureMultipleFrames ⟨0, 10⟩ 5 4 1
        (fun _ => some "f")).1.centerFrameIndex < 4 ∧
    (DownloadUtils.captureMultipleFrames ⟨0, 10⟩ 5 4 1
        (fun _ => some "f")).1.timestamps[(4 - 1) / 2]? =
      some (clampTime (10 : ℚ) 5) ∧
    (4 % 2 = 1 → (4 - 1) / 2 = 4 / 2) ∧
    (4 % 2 = 0 →
      (DownloadUtils.captureMultipleFrames ⟨0, 10⟩ 5 4 1
          (fun _ => some "f")).1.timestamps[4 / 2]? =
        some (clampTime (10 : ℚ) ((5 : ℚ) + 1))) :=
  C4_thm ⟨0, 10⟩ 5 1 4 (fun _ => some "f") (by decide) (fun _ => rfl)

/-- Counterexample to C4 as stated: at even `frameCount = 4` (center `5`,
interval `1`, duration `10`) the timestamps are `[4, 5, 6, 7]` and
`centerFrameIndex = 2` points at `6`, while the timestamp equal to the
requested center, `5`, sits at position `1`; `6` is not the nearest either. -/
theorem C4_counterexample :
    (DownloadUtils.captureMultipleFrames ⟨0, 10⟩ 5 4 1
        (fun _ => some "f")).1.centerFrameIndex = 2 ∧
    (DownloadUtils.captureMultipleFrames ⟨0, 10⟩ 5 4 1
        (fun _ => some "f")).1.timestamps = [4, 5, 6, 7] ∧
    (DownloadUtils.captureMultipleFrames ⟨0, 10⟩ 5 4 1
        (fun _ => some "f")).1.timestamps[2]? = some 6 ∧
    (DownloadUtils.captureMultipleFrames ⟨0, 10⟩ 5 4 1
        (fun _ => some "f")).1.timestamps[1]? = some 5 ∧
    (6 : ℚ) ≠ 5 ∧ |(5 : ℚ) - 5| < |(6 : ℚ) - 5| := by
  have ht : (DownloadUtils.captureMultipleFrames ⟨0, 10⟩ 5 4 1
      (fun _ => some "f")).1.timestamps = [4, 5, 6, 7] := by
    show (captureLoop (fun _ => some "f")
        (frameTimes (10 : ℚ) 5 1 (intRangeIncl (-(((4 : ℤ) - 1) / 2)) ((4 : ℤ) / 2)))
        ⟨0, 10⟩).2.1 = [4, 5, 6, 7]
    norm_num [captureLoop, frameTimes, intRangeIncl, clampTime, List.range_succ,
      min_def, max_def]
  refine ⟨rfl, ht, ?_, ?_, by norm_num, by norm_num⟩
  · rw [ht]; rfl
  · rw [ht]; rfl

/-! ## C5 — timestamp ordering and clamping -/

theorem intRangeIncl_pairwise (lo hi : ℤ) : (intRangeIncl lo hi).Pairwise (· < ·) := by
  unfold intRangeIncl
  exact (List.pairwise_lt_range _).map _ (fun a b hab => by omega)

theorem frameTimes_sorted (d c v : ℚ) (hv : 0 ≤ v) (idxs : List ℤ)
    (h : idxs.Pairwise (· < ·)) :
    (frameTimes d c v idxs).Pairwise (· ≤ ·) := by
  unfold frameTimes
  refine h.map _ ?_
  intro a b hab
  unfold clampTime
  have hq : (a : ℚ) ≤ (b : ℚ) := by exact_mod_cast le_of_lt hab
  have hmul : c + (a : ℚ) * v ≤ c + (b : ℚ) * v := by nlinarith
  exact max_le_max le_rfl (min_le_min le_rfl hmul)

theorem frameTimes_mem_bounds (d c v : ℚ) (hd : 0 ≤ d) (idxs : List ℤ) :
    ∀ t ∈ frameTimes d c v idxs, 0 ≤ t ∧ t ≤ d := by
  intro t ht
  unfold frameTimes at ht
  obtain ⟨i, -, rfl⟩ := List.mem_map.1 ht
  unfold clampTime
  exact ⟨le_max_left _ _, max_le hd (min_le_left _ _)⟩

/-- C5 (amended): for nonnegative `intervalSeconds` and nonnegative duration,
both samplers return timestamps that are non-decreasing in list order and
clamped into `[0, duration]`.  (Nonnegativity of the interval is required:
the claim as stated quantifies over all intervals, and a negative interval
produces a decreasing sequence.) -/
theorem C5_thm (videoElement : VideoState) (centerTime intervalSeconds : ℚ)
    (frameCount : ℕ) (render : ℚ → Option String)
    (hd : 0 ≤ videoElement.duration) (hi : 0 ≤ intervalSeconds) :
    (List.Sorted (· ≤ ·)
        (DownloadUtils.captureMultipleFrames videoElement centerTime frameCount
          intervalSeconds render).1.timestamps ∧
      ∀ t ∈ (DownloadUtils.captureMultipleFrames videoElement centerTime frameCount
          intervalSeconds render).1.timestamps, 0 ≤ t ∧ t ≤ videoElement.duration) ∧
    (List.Sorted (· ≤ ·)
        (FileUtils.captureMultipleFrames videoElement centerTime frameCount
          intervalSeconds render).1.timestamps ∧
      ∀ t ∈ (FileUtils.captureMultipleFrames videoElement centerTime frameCount
          intervalSeconds render).1.timestamps, 0 ≤ t ∧ t ≤ videoElement.duration) := by
  constructor
  · rw [dl_timestamps]
    refine ⟨(frameTimes_sorted _ _ _ hi _ (intRangeIncl_pairwise _ _)).filter _, ?_⟩
    intro t ht
    exact frameTimes_mem_bounds _ _ _ hd _ t (List.mem_of_mem_filter ht)
  · rw [fu_timestamps]
    refine ⟨(frameTimes_sorted _ _ _ hi _ (intRangeIncl_pairwise _ _)).filter _, ?_⟩
    intro t ht
    exact frameTimes_mem_bounds _ _ _ hd _ t (List.mem_of_mem_filter ht)

/-- Witness for C5 at center `5`, `frameCount = 3`, interval `1`, duration `10`. -/
theorem C5_witness :
    (List.Sorted (· ≤ ·)
        (DownloadUtils.captureMultipleFrames ⟨0, 10⟩ 5 3 1
          (fun _ => some "f")).1.timestamps ∧
      ∀ t ∈ (DownloadUtils.captureMultipleFrames ⟨0, 10⟩ 5 3 1
          (fun _ => some "f")).1.timestamps, 0 ≤ t ∧ t ≤ (10 : ℚ)) ∧
    (List.Sorted (· ≤ ·)
        (FileUtils.captureMultipleFrames ⟨0, 10⟩ 5 3 1
          (fun _ => some "f")).1.timestamps ∧
      ∀ t ∈ (FileUtils.captureMultipleFrames ⟨0, 10⟩ 5 3 1
          (fun _ => some "f")).1.timestamps, 0 ≤ t ∧ t ≤ (10 : ℚ)) :=
  C5_thm ⟨0, 10⟩ 5 1 3 (fun _ => some "f") (by decide) (by decide)

/-- Counterexample to C5 as stated: with a negative interval `-1` the returned
timestamps `[6, 5, 4]` are not non-decreasing. -/
theorem C5_counterexample :
    ¬ List.Sorted (· ≤ ·)
      (DownloadUtils.captureMultipleFrames ⟨0, 10⟩ 5 3 (-1)
        (fun _ => some "f")).1.timestamps := by
  intro hs
  have ht : (DownloadUtils.captureMultipleFrames ⟨0, 10⟩ 5 3 (-1)
      (fun _ => some "f")).1.timestamps = [6, 5, 4] := by
    show (captureLoop (fun _ => some "f")
        (frameTimes (10 : ℚ) 5 (-1) (intRangeIncl (-(((3 : ℤ) - 1) / 2)) ((3 : ℤ) / 2)))
        ⟨0, 10⟩).2.1 = [6, 5, 4]
    norm_num [captureLoop, frameTimes, intRangeIncl, clampTime, List.range_succ,
      min_def, max_def]
  rw [ht] at hs
  have h65 : (6 : ℚ) ≤ 5 := List.rel_of_sorted_cons hs 5 (by simp)
  norm_num at h65

/-! ## C6 — findPeakMoment scan, scoring, and argmax -/

theorem poseScore_nonneg (pose : PoseData) : 0 ≤ poseScore pose := by
  unfold poseScore
  have h0 : (0 : ℚ) ≤ (visibleCount pose : ℚ) := Nat.cast_nonneg _
  rcases lt_or_ge (nHipY pose) (nHeadY pose) with h | h
  · rw [if_pos h]; nlinarith
  · rw [if_neg (not_lt.mpr h)]; linarith

theorem scanTimes_pairwise (d : ℚ) : (scanTimes d).Pairwise (· < ·) := by
  unfold scanTimes
  refine (List.pairwise_lt_range _).map _ ?_
  intro a b hab
  have hq : (a : ℚ) < (b : ℚ) := by exact_mod_cast hab
  linarith

theorem mem_scanTimes (d t : ℚ) :
    t ∈ scanTimes d ↔ ∃ k : ℕ, t = (k : ℚ) / 2 ∧ t < d := by
  unfold scanTimes
  simp only [List.mem_map, List.mem_range]
  constructor
  · rintro ⟨k, hk, rfl⟩
    refine ⟨k, rfl, ?_⟩
    have h2 : (k : ℚ) < 2 * d := Nat.lt_ceil.mp hk
    linarith
  · rintro ⟨k, rfl, hlt⟩
    exact ⟨k, Nat.lt_ceil.mpr (by linarith), rfl⟩

theorem findPeakLoop_spec (detect : ℚ → Option PoseData) :
    ∀ (L : List ℚ) (b m : ℚ) (s : VideoState),
      L.Pairwise (· < ·) →
      (m = -1 ∨ ∀ t ∈ L, b < t) →
      m ≤ ((findPeakLoop detect L (b, m) s).1).2 ∧
      (((findPeakLoop detect L (b, m) s).1) = (b, m) ∨
        (((findPeakLoop detect L (b, m) s).1).1 ∈ L ∧
          scoreAt detect ((findPeakLoop detect L (b, m) s).1).1 =
            some ((findPeakLoop detect L (b, m) s).1).2 ∧
          m < ((findPeakLoop detect L (b, m) s).1).2)) ∧
      (∀ t ∈ L, ∀ q, scoreAt detect t = some q →
        q ≤ ((findPeakLoop detect L (b, m) s).1).2) ∧
      (∀ t ∈ L, scoreAt detect t = some ((findPeakLoop detect L (b, m) s).1).2 →
        ((findPeakLoop detect L (b, m) s).1).1 ≤ t) := by
  intro L
  induction L with
  | nil =>
    intro b m s hpw hpre
    refine ⟨le_refl m, Or.inl rfl, ?_, ?_⟩ <;> intro t ht <;> simp at ht
  | cons t0 ts ih =>
    intro b m s hpw hpre
    rw [List.pairwise_cons] at hpw
    obtain ⟨hlt_all, hpw'⟩ := hpw
    cases hdt : detect t0 with
    | none =>
      have hstep : findPeakLoop detect (t0 :: ts) (b, m) s =
          findPeakLoop detect ts (b, m) { s with currentTime := t0 } := by
        simp [findPeakLoop, hdt]
      have hpre' : m = -1 ∨ ∀ t ∈ ts, b < t := by
        rcases hpre with h | h
        · exact Or.inl h
        · exact Or.inr fun t ht => h t (List.mem_cons_of_mem _ ht)
      obtain ⟨ih1, ih2, ih3, ih4⟩ := ih b m { s with currentTime := t0 } hpw' hpre'
      rw [hstep]
      refine ⟨ih1, ?_, ?_, ?_⟩
      · rcases ih2 with h | ⟨hmem, hsc, hm⟩
        · exact Or.inl h
        · exact Or.inr ⟨List.mem_cons_of_mem _ hmem, hsc, hm⟩
      · intro t ht q hq
        rcases List.mem_cons.mp ht with rfl | ht'
        · exfalso; simp [scoreAt, hdt] at hq
        · exact ih3 t ht' q hq
      · intro t ht hq
        rcases List.mem_cons.mp ht with rfl | ht'
        · exfalso; simp [scoreAt, hdt] at hq
        · exact ih4 t ht' hq
    | some pose =>
      have hsc0 : scoreAt detect t0 = some (poseScore pose) := by simp [scoreAt, hdt]
      by_cases himp : m < poseScore pose
      · have hstep : findPeakLoop detect (t0 :: ts) (b, m) s =
            findPeakLoop detect ts (t0, poseScore pose) { s with currentTime := t0 } := by
          simp [findPeakLoop, hdt, himp]
        have hpre' : poseScore pose = -1 ∨ ∀ t ∈ ts, t0 < t := Or.inr hlt_all
        obtain ⟨ih1, ih2, ih3, ih4⟩ :=
          ih t0 (poseScore pose) { s with currentTime := t0 } hpw' hpre'
        rw [hstep]
        refine ⟨le_of_lt (lt_of_lt_of_le himp ih1), ?_, ?_, ?_⟩
        · rcases ih2 with h | ⟨hmem, hsc, hm⟩
          · rw [h]
            exact Or.inr ⟨List.mem_cons_self _ _, hsc0, himp⟩
          · exact Or.inr ⟨List.mem_cons_of_mem _ hmem, hsc, lt_trans himp hm⟩
        · intro t ht q hq
          rcases List.mem_cons.mp ht with rfl | ht'
          · have hq' : q = poseScore pose := by
              rw [hsc0] at hq
              exact (Option.some_inj.mp hq).symm
            rw [hq']
            exact ih1
          · exact ih3 t ht' q hq
        · intro t ht hq
          rcases List.mem_cons.mp ht with rfl | ht'
          · rcases ih2 with h | ⟨hmem, hsc, hm⟩
            · rw [h]
            · exfalso
              rw [hsc0] at hq
              have hEq := Option.some_inj.mp hq
              linarith
          · exact ih4 t ht' hq
      · have hstep : findPeakLoop detect (t0 :: ts) (b, m) s =
            findPeakLoop detect ts (b, m) { s with currentTime := t0 } := by
          simp [findPeakLoop, hdt, himp]
        have hle : poseScore pose ≤ m := not_lt.mp himp
        have hble : ∀ t ∈ t0 :: ts, b < t := by
          rcases hpre with h | h
          · exfalso
            have hnn := poseScore_nonneg pose
            rw [h] at hle
            linarith
          · exact h
        have hpre' : m = -1 ∨ ∀ t ∈ ts, b < t :=
          Or.inr fun t ht => hble t (List.mem_cons_of_mem _ ht)
        obtain ⟨ih1, ih2, ih3, ih4⟩ := ih b m { s with currentTime := t0 } hpw' hpre'
        rw [hstep]
        refine ⟨ih1, ?_, ?_, ?_⟩
        · rcases ih2 with h | ⟨hmem, hsc, hm⟩
          · exact Or.inl h
          · exact Or.inr ⟨List.mem_cons_of_mem _ hmem, hsc, hm⟩
        · intro t ht q hq
          rcases List.mem_cons.mp ht with rfl | ht'
          · have hq' : q = poseScore pose := by
              rw [hsc0] at hq
              exact (Option.some_inj.mp hq).symm
            rw [hq']
            exact le_trans hle ih1
          · exact ih3 t ht' q hq
        · intro t ht hq
          rcases List.mem_cons.mp ht with rfl | ht'
          · rw [hsc0] at hq
            have hEq := Option.some_inj.mp hq
            rcases ih2 with h | ⟨hmem, hsc, hm⟩
            · rw [h]
              exact le_of_lt (hble _ (List.mem_cons_self _ _))
            · exfalso
              rw [← hEq] at hm
              exact himp hm
          · exact ih4 t ht' hq

/-- C6 (confirmed): `findPeakMoment` scans exactly the timestamps
`0, 0.5, 1.0, …` strictly below the duration; at each detected step the score
is `(if head y > hip y then 50 + 100*(head y - hip y) else 0)` plus the number
of landmarks with visibility above `0.6`; and (provided some scanned step
detects a pose) it returns the earliest scanned timestamp achieving the
maximal score over the whole scan, together with that score. -/
theorem C6_thm (videoElement : VideoState) (detect : ℚ → Option PoseData)
    (hdet : ∃ t ∈ scanTimes videoElement.duration, (detect t).isSome) :
    (∀ t : ℚ, t ∈ scanTimes videoElement.duration ↔
        ∃ k : ℕ, t = (k : ℚ) / 2 ∧ t < videoElement.duration) ∧
    (∀ pose : PoseData,
        poseScore pose =
          (if nHipY pose < nHeadY pose then 50 + (nHeadY pose - nHipY pose) * 100 else 0) +
            (pose.landmarks.countP
              (fun l => l.visibility.any (fun v => decide ((0.6 : ℚ) < v))) : ℚ)) ∧
    (findPeakMoment videoElement detect).1.1 ∈ scanTimes videoElement.duration ∧
    scoreAt detect (findPeakMoment videoElement detect).1.1 =
      some (findPeakMoment videoElement detect).1.2 ∧
    (∀ t ∈ scanTimes videoElement.duration, ∀ q,
        scoreAt detect t = some q → q ≤ (findPeakMoment videoElement detect).1.2) ∧
    (∀ t ∈ scanTimes videoElement.duration,
        scoreAt detect t = some (findPeakMoment videoElement detect).1.2 →
          (findPeakMoment videoElement detect).1.1 ≤ t) := by
  have hpred : visibleLandmark =
      fun l : Landmark => l.visibility.any (fun v => decide ((0.6 : ℚ) < v)) := by
    funext l
    cases hv : l.visibility <;> simp [visibleLandmark, Option.any, hv]
  have hform : ∀ pose : PoseData,
      poseScore pose =
        (if nHipY pose < nHeadY pose then 50 + (nHeadY pose - nHipY pose) * 100 else 0) +
          (pose.landmarks.countP
            (fun l => l.visibility.any (fun v => decide ((0.6 : ℚ) < v))) : ℚ) := by
    intro pose
    unfold poseScore visibleCount
    rw [List.countP_eq_length_filter, ← hpred]
  have hfm : findPeakMoment videoElement detect =
      findPeakLoop detect (scanTimes videoElement.duration) (0, -1) videoElement := rfl
  obtain ⟨spec1, spec2, spec3, spec4⟩ :=
    findPeakLoop_spec detect (scanTimes videoElement.duration) 0 (-1) videoElement
      (scanTimes_pairwise _) (Or.inl rfl)
  obtain ⟨t0, ht0, hsome⟩ := hdet
  obtain ⟨p0, hp0⟩ := Option.isSome_iff_exists.mp hsome
  have hsc : scoreAt detect t0 = some (poseScore p0) := by simp [scoreAt, hp0]
  have hq0 : poseScore p0 ≤ ((findPeakLoop detect (scanTimes videoElement.duration)
      (0, -1) videoElement).1).2 := spec3 t0 ht0 _ hsc
  have hpos : (0 : ℚ) ≤ poseScore p0 := poseScore_nonneg p0
  rcases spec2 with hbad | ⟨hmem, hsceq, -⟩
  · exfalso
    have hneg : ((findPeakLoop detect (scanTimes videoElement.duration)
        (0, -1) videoElement).1).2 = -1 := by rw [hbad]
    rw [hneg] at hq0
    linarith
  · refine ⟨fun t => mem_scanTimes videoElement.duration t, hform, ?_, ?_, ?_, ?_⟩
    · rw [hfm]; exact hmem
    · rw [hfm]; exact hsceq
    · rw [hfm]; exact spec3
    · rw [hfm]; exact spec4

/-- Witness for C6: a 1-second source scanned at `[0, 0.5]` with a detector
that always returns a fixed pose. -/
theorem C6_witness :
    (∀ t : ℚ, t ∈ scanTimes (VideoState.mk 0 1).duration ↔
        ∃ k : ℕ, t = (k : ℚ) / 2 ∧ t < (VideoState.mk 0 1).duration) ∧
    (∀ pose : PoseData,
        poseScore pose =
          (if nHipY pose < nHeadY pose then 50 + (nHeadY pose - nHipY pose) * 100 else 0) +
            (pose.landmarks.countP
              (fun l => l.visibility.any (fun v => decide ((0.6 : ℚ) < v))) : ℚ)) ∧
    (findPeakMoment (VideoState.mk 0 1)
        (fun _ => some (PoseData.mk (List.replicate 33 default)
          (List.replicate 33 default) none))).1.1 ∈
      scanTimes (VideoState.mk 0 1).duration ∧
    scoreAt (fun _ => some (PoseData.mk (List.replicate 33 default)
        (List.replicate 33 default) none))
      (findPeakMoment (VideoState.mk 0 1)
        (fun _ => some (PoseData.mk (List.replicate 33 default)
          (List.replicate 33 default) none))).1.1 =
      some (findPeakMoment (VideoState.mk 0 1)
        (fun _ => some (PoseData.mk (List.replicate 33 default)
          (List.replicate 33 default) none))).1.2 ∧
    (∀ t ∈ scanTimes (VideoState.mk 0 1).duration, ∀ q,
        scoreAt (fun _ => some (PoseData.mk (List.replicate 33 default)
          (List.replicate 33 default) none)) t = some q →
          q ≤ (findPeakMoment (VideoState.mk 0 1)
            (fun _ => some (PoseData.mk (List.replicate 33 default)
              (List.replicate 33 default) none))).1.2) ∧
    (∀ t ∈ scanTimes (VideoState.mk 0 1).duration,
        scoreAt (fun _ => some (PoseData.mk (List.replicate 33 default)
          (List.replicate 33 default) none)) t =
            some (findPeakMoment (VideoState.mk 0 1)
              (fun _ => some (PoseData.mk (List.replicate 33 default)
                (List.replicate 33 default) none))).1.2 →
          (findPeakMoment (VideoState.mk 0 1)
            (fun _ => some (PoseData.mk (List.replicate 33 default)
              (List.replicate 33 default) none))).1.1 ≤ t) :=
  C6_thm (VideoState.mk 0 1)
    (fun _ => some (PoseData.mk (List.replicate 33 default) (List.replicate 33 default) none))
    ⟨0, (mem_scanTimes 1 0).mpr ⟨0, by simp, zero_lt_one⟩, rfl⟩

/-! ## C3 — orchestrator capture parameters ignore the peak -/

/-- C3 (amended): in the `captureWindow > 1` branch the sampler is always run
centered on the view's full-duration midpoint with interval
`duration / captureWindow` whenever the duration is a positive finite number —
regardless of whether smart search found a peak time.  The found peak time is
in scope but not consulted by this branch (it is only used in the
`captureWindow == 1` path). -/
theorem C3_thm (peakTime : Option ℚ) (player : PlayerView) (captureWindow : ℕ)
    (d : ℚ) (hd : player.duration = some d) (h0 : 0 < d) :
    multiFrameCaptureArgs peakTime player captureWindow =
      (captureWindow, d / (captureWindow : ℚ), some (d / 2)) ∧
    multiFrameCaptureArgs peakTime player captureWindow =
      multiFrameCaptureArgs none player captureWindow := by
  constructor <;> simp [multiFrameCaptureArgs, hd, h0]

/-- Witness for C3: a 10-second view with a found peak at `2`, window `4`. -/
theorem C3_witness :
    multiFrameCaptureArgs (some 2) (PlayerView.mk (some 10) 0) 4 =
      (4, (10 : ℚ) / ((4 : ℕ) : ℚ), some ((10 : ℚ) / 2)) ∧
    multiFrameCaptureArgs (some 2) (PlayerView.mk (some 10) 0) 4 =
      multiFrameCaptureArgs none (PlayerView.mk (some 10) 0) 4 :=
  C3_thm (some 2) (PlayerView.mk (some 10) 0) 4 10 rfl (by decide)

/-- Counterexample to C3 as stated: with a peak found at `2` on a 10-second
view and `captureWindow = 4`, the sampler is centered on `5` — the
full-duration midpoint — and not on the peak time `2`. -/
theorem C3_counterexample :
    (multiFrameCaptureArgs (some 2) (PlayerView.mk (some 10) 0) 4).2.2 = some 5 ∧
    (5 : ℚ) ≠ 2 := by
  constructor
  · norm_num [multiFrameCaptureArgs]
  · norm_num

/-! ## C8 — the no-input guard -/

theorem captureLoop_frames_none :
    ∀ (ts : List ℚ) (s : VideoState), (captureLoop (fun _ => none) ts s).1 = [] := by
  intro ts
  induction ts with
  | nil => intro s; rfl
  | cons t ts ih => intro s; simp [captureLoop, ih]

/-- C8 (amended): the orchestrator raises the "No video input detected" error
exactly when no player produced a capture result; any produced capture — even
one whose frames list is empty — counts as a view, so a payload whose views
carry zero frames in total can still be handed to the analysis call. -/
theorem C8_thm (captures : List (Option (List String))) :
    (runAnalysisGuard captures = Except.error noInputError ↔
      buildViews captures = []) ∧
    (buildViews captures ≠ [] →
      runAnalysisGuard captures = Except.ok (buildViews captures)) := by
  unfold runAnalysisGuard
  by_cases h : (buildViews captures).length = 0
  · rw [if_pos h]
    have he : buildViews captures = [] := List.length_eq_zero.mp h
    exact ⟨⟨fun _ => he, fun _ => rfl⟩, fun hne => absurd he hne⟩
  · rw [if_neg h]
    refine ⟨⟨fun hcontra => Except.noConfusion hcontra, fun he => ?_⟩, fun _ => rfl⟩
    exact absurd (show (buildViews captures).length = 0 by rw [he]; rfl) h

/-- Witness for C8: one player producing a one-frame capture passes the guard. -/
theorem C8_witness :
    runAnalysisGuard [some ["a"]] = Except.ok [["a"]] :=
  (C8_thm [some ["a"]]).2 (by decide)

/-- Counterexample to C8 as stated: a player whose every per-frame render
fails still yields a capture, so the guard sees one view and passes a payload
carrying zero frames in total on to the analysis call. -/
theorem C8_counterexample :
    runAnalysisGuard [some ((DownloadUtils.captureMultipleFrames ⟨0, 10⟩ 5 3 1
        (fun _ => none)).1.frames)] = Except.ok [[]] ∧
    (List.flatten [[]] : List String) = [] := by
  have hf : (DownloadUtils.captureMultipleFrames ⟨0, 10⟩ 5 3 1
      (fun _ => none)).1.frames = [] := captureLoop_frames_none _ _
  rw [hf]
  exact ⟨rfl, rfl⟩

/-! ## C7 — the flat index map -/

theorem viewRangesFrom_getElem? :
    ∀ (sizes : List ℕ) (start i : ℕ), i < sizes.length →
      (viewRangesFrom start sizes)[i]? =
        some (start + (sizes.take i).sum, start + (sizes.take (i + 1)).sum - 1) := by
  intro sizes
  induction sizes with
  | nil => intro start i h; simp at h
  | cons len rest ih =>
    intro start i h
    cases i with
    | zero => simp [viewRangesFrom]
    | succ j =>
      have hj : j < rest.length := by simpa using h
      rw [show viewRangesFrom start (len :: rest) =
          (start, start + len - 1) :: viewRangesFrom (start + len) rest from rfl,
        List.getElem?_cons_succ, ih (start + len) j hj]
      simp [List.take_succ_cons, Nat.add_assoc]

/-- C7 (confirmed): the flat-index map is built by accumulating per-view frame
counts in view order — view `i` occupies global 1-indexed positions
`1 + Σ_{j<i} sizes_j` through `Σ_{j≤i} sizes_j`; for view sizes `[3, 5]`,
global position 4 is the second view's local frame 1 and global position 8 is
the second view's local frame 5. -/
theorem C7_thm :
    (∀ (sizes : List ℕ) (i : ℕ), i < sizes.length →
        (viewRanges sizes)[i]? =
          some (1 + (sizes.take i).sum, (sizes.take (i + 1)).sum)) ∧
    (∀ a b : String,
        flatIndexMap [(a, 3), (b, 5)] 4 = some (b, 1) ∧
        flatIndexMap [(a, 3), (b, 5)] 8 = some (b, 5)) := by
  constructor
  · intro sizes i h
    rw [viewRanges, viewRangesFrom_getElem? sizes 1 i h]
    have h1 : 1 + (sizes.take (i + 1)).sum - 1 = (sizes.take (i + 1)).sum := by omega
    rw [h1]
  · intro a b
    exact ⟨rfl, rfl⟩

/-- Witness for C7 at sizes `[3, 5]`, second view (`i = 1`). -/
theorem C7_witness :
    (viewRanges [3, 5])[1]? =
      some (1 + ([3, 5].take 1).sum, ([3, 5].take 2).sum) ∧
    (flatIndexMap [("Front View", 3), ("Side View", 5)] 4 = some ("Side View", 1) ∧
      flatIndexMap [("Front View", 3), ("Side View", 5)] 8 = some ("Side View", 5)) :=
  ⟨C7_thm.1 [3, 5] 1 (by decide), C7_thm.2 "Front View" "Side View"⟩

/-! ## C9 — angle bounds -/

theorem atan2_bounds (y x : ℝ) : -Real.pi < atan2 y x ∧ atan2 y x ≤ Real.pi :=
  ⟨Complex.neg_pi_lt_arg _, Complex.arg_le_pi _⟩

/-- C9 (confirmed): `calculateAngle` — the absolute `atan2` difference in
degrees, reflected through `360 - angle` when above `180` — always returns a
value in `[0, 180]`. -/
theorem C9_thm (a b c : Landmark) :
    0 ≤ calculateAngle a b c ∧ calculateAngle a b c ≤ 180 := by
  have hpi : (0 : ℝ) < Real.pi := Real.pi_pos
  obtain ⟨h1a, h1b⟩ := atan2_bounds ((c.y : ℝ) - (b.y : ℝ)) ((c.x : ℝ) - (b.x : ℝ))
  obtain ⟨h2a, h2b⟩ := atan2_bounds ((a.y : ℝ) - (b.y : ℝ)) ((a.x : ℝ) - (b.x : ℝ))
  simp only [calculateAngle]
  set r := atan2 ((c.y : ℝ) - (b.y : ℝ)) ((c.x : ℝ) - (b.x : ℝ)) -
    atan2 ((a.y : ℝ) - (b.y : ℝ)) ((a.x : ℝ) - (b.x : ℝ)) with hr
  have habs : |r| < 2 * Real.pi :=
    abs_lt.mpr ⟨by rw [hr]; linarith, by rw [hr]; linarith⟩
  have hdeg : |r * 180 / Real.pi| < 360 := by
    rw [abs_div, abs_mul, abs_of_pos hpi, div_lt_iff₀ hpi]
    have h180 : |(180 : ℝ)| = 180 := by norm_num
    rw [h180]
    linarith
  by_cases hgt : 180 < |r * 180 / Real.pi|
  · rw [if_pos hgt]
    constructor <;> linarith
  · rw [if_neg hgt]
    push_neg at hgt
    exact ⟨abs_nonneg _, hgt⟩

/-! ## C10 — analyzeSymmetry has no presence check -/

/-- C10 (confirmed): `analyzeSymmetry` reads `.y` of landmarks 11, 12, 23 and
24 unconditionally, so whenever any of those entries is absent the call fails
with a `TypeError` instead of returning an assessment — whereas
`getCenterOfMass`, which checks the same four landmarks, returns an absent
result. -/
theorem C10_thm (landmarks : List Landmark)
    (h : landmarks[11]? = none ∨ landmarks[12]? = none ∨
      landmarks[23]? = none ∨ landmarks[24]? = none) :
    analyzeSymmetry landmarks =
      Except.error "TypeError: cannot read property y of undefined" ∧
    getCenterOfMass landmarks = none := by
  unfold analyzeSymmetry getCenterOfMass
  rcases h11 : landmarks[11]? with _ | ls <;>
    rcases h12 : landmarks[12]? with _ | rs <;>
      rcases h23 : landmarks[23]? with _ | lh <;>
        rcases h24 : landmarks[24]? with _ | rh <;>
          simp_all

/-- Witness for C10 on the empty landmark array. -/
theorem C10_witness :
    analyzeSymmetry [] =
      Except.error "TypeError: cannot read property y of undefined" ∧
    getCenterOfMass [] = none :=
  C10_thm [] (Or.inl rfl)
